import Mathlib

/-!
The `cmd` package of valet (`cmd/valet.go`, `cmd/checksum_create.go`).

A shallow embedding of the command layer of valet.  A run of the program is
recorded as the list of externally visible actions it performs, in order
(calls to collaborators, log records, `cancel()`, `os.Exit`).  Everything that
the two source files do not decide themselves (the value of `minSweep`, the
result of `makeGlobPruneFn`, what the merged error channel delivers, what
`ProcessFiles` returns, which goroutine runs first, which signal arrives) is a
field of `World`, and every theorem quantifies over it.
-/

namespace Valet

/-! ## Data model -/

/-- Go `time.Duration`: a signed number of nanoseconds. -/
abbrev Duration := Int

/-- One second as a `time.Duration`. -/
def Second : Duration := 1000000000

/-- A Go `error` value; `none` is `nil`, `some msg` a non-nil error. -/
abbrev GoError := Option String

/-- A `syscall.Signal`, a small integer. -/
abbrev Signal := Nat

/-- The number of `syscall.SIGINT` on Linux. -/
def SIGINT : Signal := 2

/-- The number of `syscall.SIGTERM` on Linux. -/
def SIGTERM : Signal := 15

/-- The three `logf.Level` constants that `setupLogger` uses. -/
inductive Level where
  | ErrorLevel
  | InfoLevel
  | DebugLevel
  deriving DecidableEq, Repr

/-- The struct `cliFlags` of `valet.go`, field for field. -/
structure cliFlags where
  debug : Bool
  verbose : Bool
  dryRun : Bool
  maxProc : Int
  sweepInterval : Duration
  rootDir : String
  excludeDirs : List String
  deriving DecidableEq, Repr

/-- The two values a `valet.WorkFunc` variable takes in `CreateChecksumFiles`. -/
inductive WorkFunc where
  | DoNothing
  | CreateOrUpdateMD5ChecksumFile
  deriving DecidableEq, Repr

/-- The file predicate handed to both discovery sources. -/
inductive FilePredicate where
  | RequiresChecksum
  deriving DecidableEq, Repr

/-- The contexts of `CreateChecksumFiles`: `context.Background()` and the
context that `context.WithCancel` derives from it. -/
inductive Context where
  | Background
  | cancelCtx
  deriving DecidableEq, Repr

/-- The log writer that `setupLogger` picks. -/
inductive Writer where
  | ConsoleWriterStdout
  | Stderr
  deriving DecidableEq, Repr

/-- An externally visible action of the program.  `P` is the type of prune
functions, which `makeGlobPruneFn` builds. -/
inductive Event (P : Type) where
  /-- The call `CreateChecksumFiles(root, exclude, interval, maxProc, dryRun)`. -/
  | CreateChecksumFiles (root : String) (exclude : List String)
      (interval : Duration) (maxProc : Int) (dryRun : Bool)
  /-- The call `context.WithCancel(context.Background())`. -/
  | WithCancel
  /-- The call `signal.Notify(signals, sigs...)`. -/
  | Notify (sigs : List Signal)
  /-- The `go` statement that starts the signal handler. -/
  | goHandler
  /-- The handler received `s` from its channel. -/
  | recvSignal (s : Signal)
  /-- The call `cancel()`. -/
  | cancel
  /-- The call `makeGlobPruneFn(exclude)`. -/
  | makeGlobPruneFn (exclude : List String)
  /-- The call `valet.WatchFiles(ctx, root, pred, pruneFn)`. -/
  | WatchFiles (ctx : Context) (root : String) (pred : FilePredicate) (pruneFn : P)
  /-- The call `valet.FindFilesInterval(ctx, root, pred, pruneFn, interval)`. -/
  | FindFilesInterval (ctx : Context) (root : String) (pred : FilePredicate)
      (pruneFn : P) (interval : Duration)
  /-- The call `mergeFileChannels(wpaths, fpaths)`. -/
  | mergeFileChannels
  /-- The call `mergeErrorChannels(werrs, ferrs)`. -/
  | mergeErrorChannels
  /-- The `go` statement that starts the worker goroutine. -/
  | goWorker
  /-- The call `valet.ProcessFiles(mpaths, workFn, maxProc)`. -/
  | ProcessFiles (workFn : WorkFunc) (maxProc : Int)
  /-- The deferred `wg.Done()` of the worker goroutine. -/
  | wgDone
  /-- The receive `<-errs`, with the value received. -/
  | recvErrs (err : GoError)
  /-- The return of `wg.Wait()`. -/
  | wgWait
  /-- A record `log.Error().Err(err).Msg(msg)`. -/
  | logError (msg : String) (err : GoError)
  /-- A record `log.Error().Msgf(format, args...)`. -/
  | logErrorf (format : String) (args : List Duration)
  /-- A record `log.Error().Str(key, s.String()).Msg(msg)`. -/
  | logErrorStr (key : String) (s : Signal) (msg : String)
  /-- A record `log.Info().Msg(msg)`. -/
  | logInfo (msg : String)
  /-- The call `os.Exit(code)`. -/
  | osExit (code : Int)
  deriving DecidableEq, Repr

/-- What the two source files leave to their collaborators and to the
scheduler, for one run. -/
structure World (P : Type) where
  /-- The package constant `minSweep` (declared outside the two files). -/
  minSweep : Duration
  /-- The function `makeGlobPruneFn` (declared outside the two files). -/
  makeGlobPruneFn : List String → Except String P
  /-- The first value that `<-errs` delivers; `none` is `nil`, which is also
  what a closed channel delivers. -/
  errs : GoError
  /-- What `valet.ProcessFiles` returns for a work function and a `maxProc`. -/
  ProcessFiles : WorkFunc → Int → GoError
  /-- The scheduler's choices between the main goroutine (`true`) and the
  worker goroutine (`false`). -/
  sched : List Bool
  /-- A signal sent to the process during the run, if any. -/
  signal : Option Signal
  /-- The scheduler's choices between the handler goroutine (`true`) and the
  rest of the program (`false`). -/
  sigSched : List Bool

/-! ## Traces -/

section Traces
variable {P : Type}

/-- A run stops at the first `os.Exit`: the prefix of a sequence of actions up
to and including it. -/
def untilExit : List (Event P) → List (Event P)
  | [] => []
  | Event.osExit c :: _ => [Event.osExit c]
  | e :: es => e :: untilExit es

/-- The exit code with which a run ended the process; `none` when the run
ended with the function returning. -/
def exitStatus : List (Event P) → Option Int
  | [] => none
  | Event.osExit c :: _ => some c
  | _ :: es => exitStatus es

/-- Two goroutines whose actions are `a` and `b`, interleaved by the
scheduler: `true` lets the first one take a step, `false` the second one.
When the choices run out, or one goroutine has finished, the rest runs in
order. -/
def interleave : List Bool → List (Event P) → List (Event P) → List (Event P)
  | [], a, b => a ++ b
  | _ :: _, [], b => b
  | _ :: _, a, [] => a
  | true :: s, x :: a, b => x :: interleave s a b
  | false :: s, a, y :: b => y :: interleave s a b

/-- Whether an action is a call of `CreateChecksumFiles`. -/
def Event.isCreateChecksumFiles : Event P → Bool
  | Event.CreateChecksumFiles _ _ _ _ _ => true
  | _ => false

/-- Whether an action is a call of one of the three pipeline stages
`WatchFiles`, `FindFilesInterval`, `ProcessFiles`. -/
def Event.isPipelineCall : Event P → Bool
  | Event.WatchFiles _ _ _ _ => true
  | Event.FindFilesInterval _ _ _ _ _ => true
  | Event.ProcessFiles _ _ => true
  | _ => false

/-- Whether an action is a call of `cancel()`. -/
def Event.isCancel : Event P → Bool
  | Event.cancel => true
  | _ => false

end Traces

/-! ## `valet.go` -/

/-- The level and writer that `setupLogger` hands to `logz.New`. -/
structure LoggerConfig where
  level : Level
  writer : Writer
  deriving DecidableEq, Repr

/-- The function `setupLogger` of `valet.go`; `isTerminal` is the result of
`terminal.IsTerminal(int(os.Stdout.Fd()))`. -/
def setupLogger (flags : cliFlags) (isTerminal : Bool) : LoggerConfig :=
  let level :=
    if flags.debug then Level.DebugLevel
    else if flags.verbose then Level.InfoLevel
    else Level.ErrorLevel
  let writer := if isTerminal then Writer.ConsoleWriterStdout else Writer.Stderr
  { level := level, writer := writer }

section Handler
variable {P : Type}

/-- The goroutine started by `setupSignalHandler`, from the point where it
has received `s` from the channel `signals`. -/
def signalHandler (s : Signal) : List (Event P) :=
  untilExit (Event.recvSignal s ::
    (if s = SIGINT then
      [Event.logInfo "got SIGINT, shutting down", Event.cancel]
    else if s = SIGTERM then
      [Event.logInfo "got SIGTERM, shutting down", Event.cancel]
    else
      [Event.logErrorStr "signal" s "got unexpected signal, exiting", Event.osExit 1]))

/-- The signals that `setupSignalHandler` registers with `signal.Notify`. -/
def notifySignals : List Signal := [SIGINT, SIGTERM]

/-- The body of `setupSignalHandler` itself: register, then start the handler
goroutine. -/
def setupSignalHandler : List (Event P) :=
  [Event.Notify notifySignals, Event.goHandler]

/-- The package `os/signal` relays to the channel only the signals registered
with `Notify`. -/
def relay (registered : List Signal) (incoming : Option Signal) : Option Signal :=
  incoming.filter (fun s => decide (s ∈ registered))

/-- The actions of the handler goroutine during a run: none while nothing
reaches its channel. -/
def handlerGoroutine (received : Option Signal) : List (Event P) :=
  match received with
  | none => []
  | some s => signalHandler s

end Handler

/-! ## `checksum_create.go` -/

section ChecksumCreate
variable {P : Type}

/-- The `if dryRun` statement of `CreateChecksumFiles` that sets `workFn`. -/
def workFn (dryRun : Bool) : WorkFunc :=
  if dryRun then WorkFunc.DoNothing else WorkFunc.CreateOrUpdateMD5ChecksumFile

/-- The worker goroutine of `CreateChecksumFiles`. -/
def workerGoroutine (w : World P) (workFn : WorkFunc) (maxProc : Int) : List (Event P) :=
  Event.ProcessFiles workFn maxProc ::
    (match w.ProcessFiles workFn maxProc with
     | some err => [Event.logError "failed processing" (some err), Event.osExit 1]
     | none => [Event.wgDone])

/-- The main goroutine of `CreateChecksumFiles` from `<-errs` up to the call
of `wg.Wait()`. -/
def awaitErrs (w : World P) : List (Event P) :=
  Event.recvErrs w.errs ::
    (match w.errs with
     | some err => [Event.logError "failed to complete processing" (some err), Event.osExit 1]
     | none => [])

/-- The function `CreateChecksumFiles` from the call of `makeGlobPruneFn` on.
`wg.Wait()` returns once the worker is done, which is after every action of
both goroutines. -/
def pipeline (w : World P) (root : String) (exclude : List String)
    (interval : Duration) (maxProc : Int) (dryRun : Bool) : List (Event P) :=
  Event.makeGlobPruneFn exclude ::
    (match w.makeGlobPruneFn exclude with
     | Except.error err =>
         [Event.logError "error in exclusion patterns" (some err), Event.osExit 1]
     | Except.ok pruneFn =>
         [Event.WatchFiles Context.cancelCtx root FilePredicate.RequiresChecksum pruneFn,
          Event.FindFilesInterval Context.cancelCtx root FilePredicate.RequiresChecksum
            pruneFn interval,
          Event.mergeFileChannels,
          Event.mergeErrorChannels,
          Event.goWorker]
         ++ interleave w.sched (awaitErrs w) (workerGoroutine w (workFn dryRun) maxProc)
         ++ [Event.wgWait])

/-- The function `CreateChecksumFiles`: the run it performs in world `w`. -/
def CreateChecksumFiles (w : World P) (root : String) (exclude : List String)
    (interval : Duration) (maxProc : Int) (dryRun : Bool) : List (Event P) :=
  untilExit (Event.WithCancel :: (setupSignalHandler ++
    interleave w.sigSched (handlerGoroutine (relay notifySignals w.signal))
      (pipeline w root exclude interval maxProc dryRun)))

/-- The function `runChecksumCreateCmd`: the run it performs in world `w` with
the parsed flags `flags`. -/
def runChecksumCreateCmd (w : World P) (flags : cliFlags) : List (Event P) :=
  let root := flags.rootDir
  let exclude := flags.excludeDirs
  let interval := flags.sweepInterval
  let maxProc := flags.maxProc
  let dryRun := flags.dryRun
  if interval < w.minSweep then
    untilExit [Event.logErrorf "Invalid interval %s (must be > %s)" [interval, w.minSweep],
      Event.osExit 1]
  else
    Event.CreateChecksumFiles root exclude interval maxProc dryRun ::
      CreateChecksumFiles w root exclude interval maxProc dryRun

end ChecksumCreate

/-- A world for examples: `minSweep` is 30 s, every exclude list is a valid
prune function, nothing fails and no signal arrives. -/
def quietWorld : World (List String) where
  minSweep := 30 * Second
  makeGlobPruneFn := fun exclude => Except.ok exclude
  errs := none
  ProcessFiles := fun _ _ => none
  sched := []
  signal := none
  sigSched := []

/-- A world in which the exclusion patterns are rejected. -/
def badPatternWorld : World (List String) :=
  { quietWorld with makeGlobPruneFn := fun _ => Except.error "syntax error in pattern" }

/-- A world in which the merged error channel delivers an error, the worker
goroutine runs first and no signal arrives. -/
def failingWorld : World (List String) :=
  { quietWorld with errs := some "watcher failed", sched := [false, true] }

/-- Example flags: the defaults of the command, with a root and an interval. -/
def exampleFlags (interval : Duration) (maxProc : Int) : cliFlags where
  debug := false
  verbose := false
  dryRun := false
  maxProc := maxProc
  sweepInterval := interval
  rootDir := "/data"
  excludeDirs := ["/data/intermediate"]

/-! ## Lemmas on traces -/

section TraceLemmas
variable {P : Type}

theorem mem_of_mem_untilExit {e : Event P} :
    ∀ {l : List (Event P)}, e ∈ untilExit l → e ∈ l := by
  intro l
  induction l with
  | nil => intro h; simp [untilExit] at h
  | cons x xs ih =>
    intro h
    cases x
    case osExit c =>
      simp only [untilExit, List.mem_singleton] at h
      exact h ▸ List.mem_cons_self _ _
    all_goals
      simp only [untilExit, List.mem_cons] at h ⊢
      rcases h with h | h
      · exact Or.inl h
      · exact Or.inr (ih h)

theorem exitStatus_untilExit (l : List (Event P)) :
    exitStatus (untilExit l) = exitStatus l := by
  induction l with
  | nil => rfl
  | cons x xs ih => cases x <;> simp [untilExit, exitStatus, ih]

theorem mem_of_exitStatus {c : Int} :
    ∀ {l : List (Event P)}, exitStatus l = some c → Event.osExit c ∈ l := by
  intro l
  induction l with
  | nil => intro h; simp [exitStatus] at h
  | cons x xs ih =>
    intro h
    cases x <;> simp only [exitStatus] at h <;>
      first
        | exact List.mem_cons_of_mem _ (ih h)
        | (cases h; exact List.mem_cons_self _ _)

theorem exitStatus_eq_none_iff (l : List (Event P)) :
    exitStatus l = none ↔ ∀ c, Event.osExit c ∉ l := by
  induction l with
  | nil => simp [exitStatus]
  | cons x xs ih =>
    cases x
    case osExit c =>
      simp only [exitStatus]
      constructor
      · intro h; cases h
      · intro h; exact absurd (List.mem_cons_self _ _) (h c)
    all_goals simp [exitStatus, ih]

/-- A run in which some `os.Exit` occurs, and every `os.Exit` has code `k`,
ends the process with code `k`. -/
theorem exitStatus_eq_of_forall {l : List (Event P)} {k : Int}
    (hex : ∃ c, Event.osExit c ∈ l) (hall : ∀ c, Event.osExit c ∈ l → c = k) :
    exitStatus l = some k := by
  cases h : exitStatus l with
  | none =>
    obtain ⟨c, hc⟩ := hex
    exact absurd hc ((exitStatus_eq_none_iff l).1 h c)
  | some c => rw [hall c (mem_of_exitStatus h)]

theorem mem_interleave {e : Event P} :
    ∀ (s : List Bool) (a b : List (Event P)),
      e ∈ interleave s a b ↔ e ∈ a ∨ e ∈ b := by
  intro s
  induction s with
  | nil => intro a b; simp [interleave]
  | cons t s ih =>
    intro a b
    cases a with
    | nil => simp [interleave]
    | cons x a =>
      cases b with
      | nil => simp [interleave]
      | cons y b =>
        cases t
        · simp only [interleave, List.mem_cons, ih]
          tauto
        · simp only [interleave, List.mem_cons, ih]
          tauto

/-- Actions before the first `os.Exit` of a run are part of the run. -/
theorem untilExit_append_of_noExit {p : List (Event P)}
    (hp : ∀ c, Event.osExit c ∉ p) (r : List (Event P)) :
    untilExit (p ++ r) = p ++ untilExit r := by
  induction p with
  | nil => rfl
  | cons x xs ih =>
    have hxs : ∀ c, Event.osExit c ∉ xs := fun c h => hp c (List.mem_cons_of_mem _ h)
    cases x <;> first
      | exact absurd (List.mem_cons_self _ _) (hp _)
      | simp [untilExit, ih hxs]

/-- A goroutine that never exits the process cannot cut short what the other
one does up to its own first `os.Exit`. -/
theorem mem_untilExit_interleave_right {e : Event P} :
    ∀ (s : List Bool) (a b : List (Event P)), (∀ c, Event.osExit c ∉ a) →
      e ∈ untilExit b → e ∈ untilExit (interleave s a b) := by
  intro s
  induction s with
  | nil =>
    intro a b ha h
    simp only [interleave]
    rw [untilExit_append_of_noExit ha]
    exact List.mem_append_right _ h
  | cons t s ih =>
    intro a b ha h
    cases a with
    | nil => simpa [interleave] using h
    | cons x a =>
      have ha2 : ∀ c, Event.osExit c ∉ a := fun c hc => ha c (List.mem_cons_of_mem _ hc)
      cases b with
      | nil => simp [untilExit] at h
      | cons y b =>
        cases t
        · simp only [interleave]
          cases y <;> simp only [untilExit, List.mem_cons, List.mem_singleton] at h ⊢ <;>
            first
              | exact h
              | (rcases h with h | h
                 · exact Or.inl h
                 · exact Or.inr (ih (x :: a) b ha h))
        · simp only [interleave]
          cases x <;> first
            | exact absurd (List.mem_cons_self _ _) (ha _)
            | (simp only [untilExit, List.mem_cons]
               exact Or.inr (ih a (y :: b) ha2 h))

end TraceLemmas

/-! ## Lemmas on the goroutines -/

section GoroutineLemmas
variable {P : Type}

theorem mem_untilExit_append_left {e : Event P} :
    ∀ {a : List (Event P)} (b : List (Event P)),
      e ∈ untilExit a → e ∈ untilExit (a ++ b) := by
  intro a b
  induction a with
  | nil => intro h; simp [untilExit] at h
  | cons x xs ih =>
    intro h
    cases x
    case osExit c => simpa [untilExit] using h
    all_goals
      simp only [List.cons_append, untilExit, List.mem_cons] at h ⊢
      rcases h with h | h
      · exact Or.inl h
      · exact Or.inr (ih h)

theorem untilExit_cons_of_ne {x : Event P} (hx : ∀ c, x ≠ Event.osExit c)
    (l : List (Event P)) : untilExit (x :: l) = x :: untilExit l := by
  cases x <;> first | rfl | exact absurd rfl (hx _)

/-- When two interleaved goroutines exit the process, the run up to the exit
holds everything that one of them, which has an `os.Exit`, did up to its own
first `os.Exit`. -/
theorem untilExit_interleave_exited :
    ∀ (s : List Bool) (a b : List (Event P)), (∃ c, Event.osExit c ∈ interleave s a b) →
      ((∃ c, Event.osExit c ∈ a) ∧ ∀ e ∈ untilExit a, e ∈ untilExit (interleave s a b)) ∨
      ((∃ c, Event.osExit c ∈ b) ∧
        ∀ e ∈ untilExit b, e ∈ untilExit (interleave s a b)) := by
  intro s
  induction s with
  | nil =>
    intro a b h
    simp only [interleave] at h ⊢
    by_cases ha : ∃ c, Event.osExit c ∈ a
    · exact Or.inl ⟨ha, fun e he => mem_untilExit_append_left b he⟩
    · have ha2 : ∀ c, Event.osExit c ∉ a := fun c hc => ha ⟨c, hc⟩
      obtain ⟨c, hc⟩ := h
      rcases List.mem_append.1 hc with hc | hc
      · exact absurd hc (ha2 c)
      · refine Or.inr ⟨⟨c, hc⟩, ?_⟩
        rw [untilExit_append_of_noExit ha2]
        exact fun e he => List.mem_append_right _ he
  | cons t s ih =>
    intro a b h
    cases a with
    | nil =>
      simp only [interleave] at h ⊢
      exact Or.inr ⟨h, fun e he => he⟩
    | cons x a =>
      cases b with
      | nil =>
        simp only [interleave] at h ⊢
        exact Or.inl ⟨h, fun e he => he⟩
      | cons y b =>
        cases t
        · simp only [interleave] at h ⊢
          by_cases hy : ∃ c, y = Event.osExit c
          · obtain ⟨c, rfl⟩ := hy
            refine Or.inr ⟨⟨c, List.mem_cons_self _ _⟩, ?_⟩
            intro e he
            simpa [untilExit] using he
          · have hy2 : ∀ c, y ≠ Event.osExit c := fun c hc => hy ⟨c, hc⟩
            simp only [untilExit_cons_of_ne hy2]
            have h2 : ∃ c, Event.osExit c ∈ interleave s (x :: a) b := by
              obtain ⟨c, hc⟩ := h
              rcases List.mem_cons.1 hc with hc | hc
              · exact absurd hc.symm (hy2 c)
              · exact ⟨c, hc⟩
            rcases ih (x :: a) b h2 with ⟨hex, hall⟩ | ⟨hex, hall⟩
            · exact Or.inl ⟨hex, fun e he => List.mem_cons_of_mem _ (hall e he)⟩
            · obtain ⟨c, hc⟩ := hex
              refine Or.inr ⟨⟨c, List.mem_cons_of_mem _ hc⟩, ?_⟩
              intro e he
              rcases List.mem_cons.1 he with he | he
              · exact he ▸ List.mem_cons_self _ _
              · exact List.mem_cons_of_mem _ (hall e he)
        · simp only [interleave] at h ⊢
          by_cases hx : ∃ c, x = Event.osExit c
          · obtain ⟨c, rfl⟩ := hx
            refine Or.inl ⟨⟨c, List.mem_cons_self _ _⟩, ?_⟩
            intro e he
            simpa [untilExit] using he
          · have hx2 : ∀ c, x ≠ Event.osExit c := fun c hc => hx ⟨c, hc⟩
            simp only [untilExit_cons_of_ne hx2]
            have h2 : ∃ c, Event.osExit c ∈ interleave s a (y :: b) := by
              obtain ⟨c, hc⟩ := h
              rcases List.mem_cons.1 hc with hc | hc
              · exact absurd hc.symm (hx2 c)
              · exact ⟨c, hc⟩
            rcases ih a (y :: b) h2 with ⟨hex, hall⟩ | ⟨hex, hall⟩
            · obtain ⟨c, hc⟩ := hex
              refine Or.inl ⟨⟨c, List.mem_cons_of_mem _ hc⟩, ?_⟩
              intro e he
              rcases List.mem_cons.1 he with he | he
              · exact he ▸ List.mem_cons_self _ _
              · exact List.mem_cons_of_mem _ (hall e he)
            · exact Or.inr ⟨hex, fun e he => List.mem_cons_of_mem _ (hall e he)⟩

/-- What the handler goroutine does with a signal that `signal.Notify` relays:
nothing when there is none, and otherwise it logs and cancels. -/
theorem handlerGoroutine_relay (sig : Option Signal) :
    (handlerGoroutine (relay notifySignals sig) : List (Event P)) = [] ∨
    (sig = some SIGINT ∧
      (handlerGoroutine (relay notifySignals sig) : List (Event P)) =
        [Event.recvSignal SIGINT, Event.logInfo "got SIGINT, shutting down", Event.cancel]) ∨
    (sig = some SIGTERM ∧
      (handlerGoroutine (relay notifySignals sig) : List (Event P)) =
        [Event.recvSignal SIGTERM, Event.logInfo "got SIGTERM, shutting down",
          Event.cancel]) := by
  cases sig with
  | none => exact Or.inl rfl
  | some s =>
    by_cases h1 : s = SIGINT
    · subst h1
      exact Or.inr (Or.inl ⟨rfl, rfl⟩)
    · by_cases h2 : s = SIGTERM
      · subst h2
        exact Or.inr (Or.inr ⟨rfl, rfl⟩)
      · refine Or.inl ?_
        have hr : relay notifySignals (some s) = none := by
          simp [relay, notifySignals, Option.filter, h1, h2]
        rw [hr]
        rfl

theorem handlerGoroutine_relay_noExit (sig : Option Signal) (c : Int) :
    (Event.osExit c : Event P) ∉ handlerGoroutine (relay notifySignals sig) := by
  rcases handlerGoroutine_relay (P := P) sig with h | ⟨_, h⟩ | ⟨_, h⟩ <;> rw [h] <;> simp

theorem workerGoroutine_mem {w : World P} {f : WorkFunc} {m : Int} {e : Event P}
    (h : e ∈ workerGoroutine w f m) :
    e = Event.ProcessFiles f m ∨ e = Event.wgDone ∨ e = Event.osExit 1 ∨
      ∃ err, e = Event.logError "failed processing" (some err) := by
  unfold workerGoroutine at h
  cases hr : w.ProcessFiles f m with
  | none =>
    rw [hr] at h
    simp only [List.mem_cons, List.mem_singleton, List.not_mem_nil, or_false] at h
    tauto
  | some err =>
    rw [hr] at h
    simp only [List.mem_cons, List.mem_singleton, List.not_mem_nil, or_false] at h
    rcases h with h | h | h
    · exact Or.inl h
    · exact Or.inr (Or.inr (Or.inr ⟨err, h⟩))
    · exact Or.inr (Or.inr (Or.inl h))

theorem awaitErrs_mem {w : World P} {e : Event P} (h : e ∈ awaitErrs w) :
    e = Event.recvErrs w.errs ∨ e = Event.osExit 1 ∨
      ∃ err, e = Event.logError "failed to complete processing" (some err) := by
  unfold awaitErrs at h
  cases hr : w.errs with
  | none =>
    rw [hr] at h
    simp only [List.mem_cons, List.not_mem_nil, or_false] at h
    exact Or.inl h
  | some err =>
    rw [hr] at h
    simp only [List.mem_cons, List.mem_singleton, List.not_mem_nil, or_false] at h
    rcases h with h | h | h
    · exact Or.inl h
    · exact Or.inr (Or.inr ⟨err, h⟩)
    · exact Or.inr (Or.inl h)

/-- The worker goroutine exits the process exactly when `ProcessFiles` returns
an error. -/
theorem workerGoroutine_exit_iff (w : World P) (f : WorkFunc) (m : Int) (c : Int) :
    Event.osExit c ∈ workerGoroutine w f m ↔ c = 1 ∧ w.ProcessFiles f m ≠ none := by
  unfold workerGoroutine
  cases hr : w.ProcessFiles f m <;> simp

/-- The main goroutine exits the process at `<-errs` exactly when it receives
an error. -/
theorem awaitErrs_exit_iff (w : World P) (c : Int) :
    Event.osExit c ∈ awaitErrs w ↔ c = 1 ∧ w.errs ≠ none := by
  unfold awaitErrs
  cases hr : w.errs <;> simp

end GoroutineLemmas

/-! ## Lemmas on `CreateChecksumFiles` -/

section PipelineLemmas
variable {P : Type}

/-- Every action of a run of `CreateChecksumFiles` is one of its own first
three, one of the handler goroutine, or one of the pipeline. -/
theorem mem_CreateChecksumFiles {w : World P} {root : String} {exclude : List String}
    {interval : Duration} {maxProc : Int} {dryRun : Bool} {e : Event P}
    (h : e ∈ CreateChecksumFiles w root exclude interval maxProc dryRun) :
    e = Event.WithCancel ∨ e = Event.Notify notifySignals ∨ e = Event.goHandler ∨
      e ∈ (handlerGoroutine (relay notifySignals w.signal) : List (Event P)) ∨
      e ∈ pipeline w root exclude interval maxProc dryRun := by
  have h2 := mem_of_mem_untilExit h
  simp only [setupSignalHandler, List.mem_cons, List.cons_append, List.nil_append,
    mem_interleave] at h2
  tauto

/-- What the pipeline does up to its first `os.Exit` is part of the run of
`CreateChecksumFiles`, whatever the handler goroutine does meanwhile. -/
theorem mem_CreateChecksumFiles_of_pipeline {w : World P} {root : String}
    {exclude : List String} {interval : Duration} {maxProc : Int} {dryRun : Bool}
    {e : Event P} (h : e ∈ untilExit (pipeline w root exclude interval maxProc dryRun)) :
    e ∈ CreateChecksumFiles w root exclude interval maxProc dryRun := by
  unfold CreateChecksumFiles
  have h2 := mem_untilExit_interleave_right w.sigSched
    (handlerGoroutine (relay notifySignals w.signal)) _
    (handlerGoroutine_relay_noExit w.signal) h
  simp only [setupSignalHandler, List.cons_append, List.nil_append, untilExit, List.mem_cons]
  exact Or.inr (Or.inr (Or.inr h2))

/-- A run of `CreateChecksumFiles` ends the process exactly when its pipeline
does, and with the same code. -/
theorem exitStatus_CreateChecksumFiles_eq {w : World P} {root : String}
    {exclude : List String} {interval : Duration} {maxProc : Int} {dryRun : Bool} {k : Int}
    (hex : ∃ c, Event.osExit c ∈ pipeline w root exclude interval maxProc dryRun)
    (hall : ∀ c, Event.osExit c ∈ pipeline w root exclude interval maxProc dryRun → c = k) :
    exitStatus (CreateChecksumFiles w root exclude interval maxProc dryRun) = some k := by
  unfold CreateChecksumFiles
  rw [exitStatus_untilExit]
  apply exitStatus_eq_of_forall
  · obtain ⟨c, hc⟩ := hex
    refine ⟨c, ?_⟩
    simp only [setupSignalHandler, List.mem_cons, List.cons_append, List.nil_append,
      mem_interleave]
    exact Or.inr (Or.inr (Or.inr (Or.inr hc)))
  · intro c hc
    simp only [setupSignalHandler, List.mem_cons, List.cons_append, List.nil_append,
      mem_interleave] at hc
    rcases hc with hc | hc | hc | hc | hc
    · cases hc
    · cases hc
    · cases hc
    · exact absurd hc (handlerGoroutine_relay_noExit w.signal c)
    · exact hall c hc

theorem exitStatus_CreateChecksumFiles_none {w : World P} {root : String}
    {exclude : List String} {interval : Duration} {maxProc : Int} {dryRun : Bool}
    (hno : ∀ c, Event.osExit c ∉ pipeline w root exclude interval maxProc dryRun) :
    exitStatus (CreateChecksumFiles w root exclude interval maxProc dryRun) = none := by
  unfold CreateChecksumFiles
  rw [exitStatus_untilExit, exitStatus_eq_none_iff]
  intro c hc
  simp only [setupSignalHandler, List.mem_cons, List.cons_append, List.nil_append,
    mem_interleave] at hc
  rcases hc with hc | hc | hc | hc | hc
  · cases hc
  · cases hc
  · cases hc
  · exact handlerGoroutine_relay_noExit w.signal c hc
  · exact hno c hc

/-- The pipeline when the exclusion patterns are rejected. -/
theorem pipeline_of_error {w : World P} {exclude : List String} {err : String}
    (herr : w.makeGlobPruneFn exclude = Except.error err) (root : String)
    (interval : Duration) (maxProc : Int) (dryRun : Bool) :
    pipeline w root exclude interval maxProc dryRun =
      [Event.makeGlobPruneFn exclude,
       Event.logError "error in exclusion patterns" (some err), Event.osExit 1] := by
  unfold pipeline
  rw [herr]

/-- The pipeline when the exclusion patterns are accepted. -/
theorem pipeline_of_ok {w : World P} {exclude : List String} {pruneFn : P}
    (hok : w.makeGlobPruneFn exclude = Except.ok pruneFn) (root : String)
    (interval : Duration) (maxProc : Int) (dryRun : Bool) :
    pipeline w root exclude interval maxProc dryRun =
      [Event.makeGlobPruneFn exclude,
       Event.WatchFiles Context.cancelCtx root FilePredicate.RequiresChecksum pruneFn,
       Event.FindFilesInterval Context.cancelCtx root FilePredicate.RequiresChecksum
         pruneFn interval,
       Event.mergeFileChannels, Event.mergeErrorChannels, Event.goWorker]
      ++ (interleave w.sched (awaitErrs w) (workerGoroutine w (workFn dryRun) maxProc)
      ++ [Event.wgWait]) := by
  unfold pipeline
  rw [hok]
  simp

/-- The `os.Exit` calls of a pipeline whose exclusion patterns are accepted:
code 1, after an error from `<-errs` or from `ProcessFiles`. -/
theorem pipeline_exit_iff {w : World P} {exclude : List String} {pruneFn : P}
    (hok : w.makeGlobPruneFn exclude = Except.ok pruneFn) (root : String)
    (interval : Duration) (maxProc : Int) (dryRun : Bool) (c : Int) :
    Event.osExit c ∈ pipeline w root exclude interval maxProc dryRun ↔
      c = 1 ∧ (w.errs ≠ none ∨ w.ProcessFiles (workFn dryRun) maxProc ≠ none) := by
  rw [pipeline_of_ok hok]
  simp only [List.mem_append, List.mem_cons, List.mem_singleton, List.not_mem_nil,
    or_false, mem_interleave, awaitErrs_exit_iff, workerGoroutine_exit_iff]
  constructor
  · intro h
    rcases h with h | h
    · rcases h with h | h | h | h | h | h <;> cases h
    · rcases h with h | h
      · rcases h with h | h
        · exact ⟨h.1, Or.inl h.2⟩
        · exact ⟨h.1, Or.inr h.2⟩
      · cases h
  · rintro ⟨h1, h2 | h2⟩
    · exact Or.inr (Or.inl (Or.inl ⟨h1, h2⟩))
    · exact Or.inr (Or.inl (Or.inr ⟨h1, h2⟩))

/-- Every action of a run of `CreateChecksumFiles`, classified: the actions
that any run may hold, `cancel()` (only with SIGINT or SIGTERM), and the
actions of a pipeline whose exclusion patterns were accepted. -/
theorem CreateChecksumFiles_cases {w : World P} {root : String} {exclude : List String}
    {interval : Duration} {maxProc : Int} {dryRun : Bool} {e : Event P}
    (h : e ∈ CreateChecksumFiles w root exclude interval maxProc dryRun) :
    (e = Event.WithCancel ∨ e = Event.Notify notifySignals ∨ e = Event.goHandler ∨
      e = Event.makeGlobPruneFn exclude ∨ e = Event.osExit 1 ∨
      (∃ s, e = Event.recvSignal s) ∨ (∃ m, e = Event.logInfo m) ∨
      (∃ m err, e = Event.logError m err)) ∨
    (e = Event.cancel ∧ (w.signal = some SIGINT ∨ w.signal = some SIGTERM)) ∨
    (∃ pruneFn, w.makeGlobPruneFn exclude = Except.ok pruneFn ∧
      (e = Event.WatchFiles Context.cancelCtx root FilePredicate.RequiresChecksum pruneFn ∨
       e = Event.FindFilesInterval Context.cancelCtx root FilePredicate.RequiresChecksum
         pruneFn interval ∨
       e = Event.mergeFileChannels ∨ e = Event.mergeErrorChannels ∨ e = Event.goWorker ∨
       e = Event.ProcessFiles (workFn dryRun) maxProc ∨ e = Event.wgDone ∨
       e = Event.recvErrs w.errs ∨ e = Event.wgWait)) := by
  rcases mem_CreateChecksumFiles h with h | h | h | h | h
  · exact Or.inl (Or.inl h)
  · exact Or.inl (Or.inr (Or.inl h))
  · exact Or.inl (Or.inr (Or.inr (Or.inl h)))
  · rcases handlerGoroutine_relay (P := P) w.signal with hg | ⟨hs, hg⟩ | ⟨hs, hg⟩
    · rw [hg] at h; cases h
    · rw [hg] at h
      simp only [List.mem_cons, List.mem_singleton, List.not_mem_nil, or_false] at h
      rcases h with h | h | h
      · exact Or.inl (Or.inr (Or.inr (Or.inr (Or.inr (Or.inr (Or.inl ⟨_, h⟩))))))
      · exact Or.inl (Or.inr (Or.inr (Or.inr (Or.inr (Or.inr (Or.inr (Or.inl ⟨_, h⟩)))))))
      · exact Or.inr (Or.inl ⟨h, Or.inl hs⟩)
    · rw [hg] at h
      simp only [List.mem_cons, List.mem_singleton, List.not_mem_nil, or_false] at h
      rcases h with h | h | h
      · exact Or.inl (Or.inr (Or.inr (Or.inr (Or.inr (Or.inr (Or.inl ⟨_, h⟩))))))
      · exact Or.inl (Or.inr (Or.inr (Or.inr (Or.inr (Or.inr (Or.inr (Or.inl ⟨_, h⟩)))))))
      · exact Or.inr (Or.inl ⟨h, Or.inr hs⟩)
  · cases hr : w.makeGlobPruneFn exclude with
    | error err =>
      rw [pipeline_of_error hr] at h
      simp only [List.mem_cons, List.mem_singleton, List.not_mem_nil, or_false] at h
      rcases h with h | h | h
      · exact Or.inl (Or.inr (Or.inr (Or.inr (Or.inl h))))
      · exact Or.inl (Or.inr (Or.inr (Or.inr (Or.inr (Or.inr (Or.inr (Or.inr ⟨_, _, h⟩)))))))
      · exact Or.inl (Or.inr (Or.inr (Or.inr (Or.inr (Or.inl h)))))
    | ok pruneFn =>
      rw [pipeline_of_ok hr] at h
      simp only [List.mem_append, List.mem_cons, List.mem_singleton, List.not_mem_nil,
        or_false, mem_interleave] at h
      rcases h with h | h
      · rcases h with h | h | h | h | h | h
        · exact Or.inl (Or.inr (Or.inr (Or.inr (Or.inl h))))
        · exact Or.inr (Or.inr ⟨pruneFn, rfl, Or.inl h⟩)
        · exact Or.inr (Or.inr ⟨pruneFn, rfl, Or.inr (Or.inl h)⟩)
        · exact Or.inr (Or.inr ⟨pruneFn, rfl, Or.inr (Or.inr (Or.inl h))⟩)
        · exact Or.inr (Or.inr ⟨pruneFn, rfl, Or.inr (Or.inr (Or.inr (Or.inl h)))⟩)
        · exact Or.inr (Or.inr ⟨pruneFn, rfl,
            Or.inr (Or.inr (Or.inr (Or.inr (Or.inl h))))⟩)
      · rcases h with h | h
        · rcases h with h | h
          · rcases awaitErrs_mem h with h | h | ⟨err, h⟩
            · exact Or.inr (Or.inr ⟨pruneFn, rfl, Or.inr (Or.inr (Or.inr (Or.inr
                (Or.inr (Or.inr (Or.inr (Or.inl h)))))))⟩)
            · exact Or.inl (Or.inr (Or.inr (Or.inr (Or.inr (Or.inl h)))))
            · exact Or.inl (Or.inr (Or.inr (Or.inr (Or.inr (Or.inr (Or.inr
                (Or.inr ⟨_, _, h⟩)))))))
          · rcases workerGoroutine_mem h with h | h | h | ⟨err, h⟩
            · exact Or.inr (Or.inr ⟨pruneFn, rfl, Or.inr (Or.inr (Or.inr (Or.inr
                (Or.inr (Or.inl h)))))⟩)
            · exact Or.inr (Or.inr ⟨pruneFn, rfl, Or.inr (Or.inr (Or.inr (Or.inr
                (Or.inr (Or.inr (Or.inl h))))))⟩)
            · exact Or.inl (Or.inr (Or.inr (Or.inr (Or.inr (Or.inl h)))))
            · exact Or.inl (Or.inr (Or.inr (Or.inr (Or.inr (Or.inr (Or.inr
                (Or.inr ⟨_, _, h⟩)))))))
        · exact Or.inr (Or.inr ⟨pruneFn, rfl, Or.inr (Or.inr (Or.inr (Or.inr
            (Or.inr (Or.inr (Or.inr (Or.inr h)))))))⟩)

/-- In a pipeline whose exclusion patterns are accepted, the discovery
sources are started before anything can exit the process. -/
theorem discovery_mem_untilExit_pipeline {w : World P} {exclude : List String} {pruneFn : P}
    (hok : w.makeGlobPruneFn exclude = Except.ok pruneFn) (root : String)
    (interval : Duration) (maxProc : Int) (dryRun : Bool) :
    Event.WatchFiles Context.cancelCtx root FilePredicate.RequiresChecksum pruneFn ∈
        untilExit (pipeline w root exclude interval maxProc dryRun) ∧
    Event.FindFilesInterval Context.cancelCtx root FilePredicate.RequiresChecksum
        pruneFn interval ∈ untilExit (pipeline w root exclude interval maxProc dryRun) := by
  rw [pipeline_of_ok hok, untilExit_append_of_noExit (by simp)]
  simp

/-- When `<-errs` delivers no error, the worker goroutine reaches its call of
`ProcessFiles`, whatever the scheduler does. -/
theorem ProcessFiles_mem_untilExit_pipeline {w : World P} {exclude : List String}
    {pruneFn : P} (hok : w.makeGlobPruneFn exclude = Except.ok pruneFn)
    (herrs : w.errs = none) (root : String) (interval : Duration) (maxProc : Int)
    (dryRun : Bool) :
    Event.ProcessFiles (workFn dryRun) maxProc ∈
      untilExit (pipeline w root exclude interval maxProc dryRun) := by
  rw [pipeline_of_ok hok, untilExit_append_of_noExit (by simp)]
  apply List.mem_append_right
  apply mem_untilExit_append_left
  apply mem_untilExit_interleave_right
  · intro c hc
    rw [awaitErrs_exit_iff] at hc
    exact hc.2 herrs
  · simp [workerGoroutine, untilExit]

/-- In a pipeline that observes a fatal error, the run up to the exit holds
the log record of the goroutine that exits: the record of the error from
`<-errs`, or the record of the error from `ProcessFiles`. -/
theorem logError_mem_untilExit_pipeline {w : World P} {exclude : List String}
    {pruneFn : P} (hok : w.makeGlobPruneFn exclude = Except.ok pruneFn) (root : String)
    (interval : Duration) (maxProc : Int) (dryRun : Bool)
    (herr : w.errs ≠ none ∨ w.ProcessFiles (workFn dryRun) maxProc ≠ none) :
    (∃ err, w.errs = some err ∧
      Event.logError "failed to complete processing" (some err) ∈
        untilExit (pipeline w root exclude interval maxProc dryRun)) ∨
    (∃ err, w.ProcessFiles (workFn dryRun) maxProc = some err ∧
      Event.logError "failed processing" (some err) ∈
        untilExit (pipeline w root exclude interval maxProc dryRun)) := by
  rw [pipeline_of_ok hok, untilExit_append_of_noExit (by simp)]
  have hex : ∃ c, Event.osExit c ∈
      interleave w.sched (awaitErrs w) (workerGoroutine w (workFn dryRun) maxProc) := by
    refine ⟨1, (mem_interleave _ _ _).2 ?_⟩
    rcases herr with h | h
    · exact Or.inl ((awaitErrs_exit_iff w 1).2 ⟨rfl, h⟩)
    · exact Or.inr ((workerGoroutine_exit_iff w _ _ 1).2 ⟨rfl, h⟩)
  rcases untilExit_interleave_exited _ _ _ hex with ⟨⟨c, hc⟩, hall⟩ | ⟨⟨c, hc⟩, hall⟩
  · have hne := ((awaitErrs_exit_iff w c).1 hc).2
    cases hr : w.errs with
    | none => exact absurd hr hne
    | some err =>
      refine Or.inl ⟨err, rfl, ?_⟩
      apply List.mem_append_right
      apply mem_untilExit_append_left
      apply hall
      simp [awaitErrs, hr, untilExit]
  · have hne := ((workerGoroutine_exit_iff w _ _ c).1 hc).2
    cases hr : w.ProcessFiles (workFn dryRun) maxProc with
    | none => exact absurd hr hne
    | some err =>
      refine Or.inr ⟨err, rfl, ?_⟩
      apply List.mem_append_right
      apply mem_untilExit_append_left
      apply hall
      simp [workerGoroutine, hr, untilExit]

end PipelineLemmas

/-! ## The claims -/

section Claims
variable {P : Type}

/-- C10: the level `setupLogger` chooses is `DebugLevel` when `debug` is set
(whatever `verbose` is), `InfoLevel` when `debug` is unset and `verbose` set,
`ErrorLevel` when both are unset; two flag values that agree on `debug` and
`verbose` get the same level, whatever their other fields and the terminal. -/
theorem setupLogger_level (flags : cliFlags) (isTerminal : Bool) :
    (flags.debug = true → (setupLogger flags isTerminal).level = Level.DebugLevel) ∧
    (flags.debug = false → flags.verbose = true →
      (setupLogger flags isTerminal).level = Level.InfoLevel) ∧
    (flags.debug = false → flags.verbose = false →
      (setupLogger flags isTerminal).level = Level.ErrorLevel) ∧
    (∀ (other : cliFlags) (otherTerminal : Bool),
      other.debug = flags.debug → other.verbose = flags.verbose →
      (setupLogger other otherTerminal).level = (setupLogger flags isTerminal).level) := by
  refine ⟨?_, ?_, ?_, ?_⟩
  · intro h; simp [setupLogger, h]
  · intro h1 h2; simp [setupLogger, h1, h2]
  · intro h1 h2; simp [setupLogger, h1, h2]
  · intro other otherTerminal h1 h2; simp [setupLogger, h1, h2]

/-- C3: the handler that has received signal `s` calls `cancel` exactly once
and does not exit the process when `s` is SIGINT or SIGTERM; for any other
`s` it exits the process with code 1, and `cancel` is not called. -/
theorem signalHandler_cancel_or_exit (s : Signal) :
    ((s = SIGINT ∨ s = SIGTERM) →
      (signalHandler s : List (Event P)).countP Event.isCancel = 1 ∧
      exitStatus (signalHandler s : List (Event P)) = none) ∧
    ((s ≠ SIGINT ∧ s ≠ SIGTERM) →
      exitStatus (signalHandler s : List (Event P)) = some 1 ∧
      (Event.cancel : Event P) ∉ signalHandler s ∧
      (signalHandler s : List (Event P)).countP Event.isCancel = 0) := by
  constructor
  · rintro (h | h)
    · subst h; exact ⟨rfl, rfl⟩
    · subst h; exact ⟨rfl, rfl⟩
  · rintro ⟨h1, h2⟩
    simp [signalHandler, h1, h2, untilExit, exitStatus, Event.isCancel]

/-- C1: `runChecksumCreateCmd` exits the process with a non-zero code without
calling `CreateChecksumFiles` if and only if `interval < minSweep`; otherwise,
in particular when the interval equals the minimum, its first action is the
call of `CreateChecksumFiles` with the root, exclude list, interval, maxProc
and dry-run flag exactly as the flags hold them. -/
theorem runChecksumCreateCmd_rejects_iff (w : World P) (flags : cliFlags) :
    (((∃ c, exitStatus (runChecksumCreateCmd w flags) = some c ∧ c ≠ 0) ∧
        ∀ e ∈ runChecksumCreateCmd w flags, e.isCreateChecksumFiles = false) ↔
      flags.sweepInterval < w.minSweep) ∧
    (flags.sweepInterval = w.minSweep →
      (runChecksumCreateCmd w flags).head? =
        some (Event.CreateChecksumFiles flags.rootDir flags.excludeDirs
          flags.sweepInterval flags.maxProc flags.dryRun)) ∧
    (¬ flags.sweepInterval < w.minSweep →
      (runChecksumCreateCmd w flags).head? =
        some (Event.CreateChecksumFiles flags.rootDir flags.excludeDirs
          flags.sweepInterval flags.maxProc flags.dryRun)) := by
  have hacc : ¬ flags.sweepInterval < w.minSweep →
      (runChecksumCreateCmd w flags).head? =
        some (Event.CreateChecksumFiles flags.rootDir flags.excludeDirs
          flags.sweepInterval flags.maxProc flags.dryRun) := by
    intro h
    simp [runChecksumCreateCmd, h]
  refine ⟨?_, ?_, hacc⟩
  · constructor
    · rintro ⟨_, hall⟩
      by_contra hlt
      have hhead := hacc hlt
      cases hrun : runChecksumCreateCmd w flags with
      | nil => rw [hrun] at hhead; simp at hhead
      | cons x xs =>
        rw [hrun] at hhead hall
        simp only [List.head?_cons, Option.some.injEq] at hhead
        have := hall x (List.mem_cons_self _ _)
        rw [hhead] at this
        simp [Event.isCreateChecksumFiles] at this
    · intro hlt
      simp [runChecksumCreateCmd, hlt, untilExit, exitStatus, Event.isCreateChecksumFiles]
  · intro heq
    exact hacc (by rw [heq]; exact lt_irrefl w.minSweep)

/-- C2: whenever a run of `CreateChecksumFiles` calls `ProcessFiles`, the work
function it hands over is `DoNothing` if `dryRun` is set and
`CreateOrUpdateMD5ChecksumFile` if it is not; with `dryRun` set the writing
function is never handed over; and the call does take place whenever the
exclusion patterns are accepted and `<-errs` delivers no error. -/
theorem CreateChecksumFiles_workFn (w : World P) (root : String) (exclude : List String)
    (interval : Duration) (maxProc : Int) (dryRun : Bool) :
    (∀ f m, Event.ProcessFiles f m ∈
        CreateChecksumFiles w root exclude interval maxProc dryRun →
      (dryRun = true → f = WorkFunc.DoNothing) ∧
      (dryRun = false → f = WorkFunc.CreateOrUpdateMD5ChecksumFile)) ∧
    (dryRun = true → ∀ m, Event.ProcessFiles WorkFunc.CreateOrUpdateMD5ChecksumFile m ∉
        CreateChecksumFiles w root exclude interval maxProc dryRun) ∧
    (∀ pruneFn, w.makeGlobPruneFn exclude = Except.ok pruneFn → w.errs = none →
      Event.ProcessFiles
        (if dryRun then WorkFunc.DoNothing else WorkFunc.CreateOrUpdateMD5ChecksumFile)
        maxProc ∈ CreateChecksumFiles w root exclude interval maxProc dryRun) := by
  have key : ∀ f m, Event.ProcessFiles f m ∈
      CreateChecksumFiles w root exclude interval maxProc dryRun → f = workFn dryRun := by
    intro f m h
    rcases CreateChecksumFiles_cases h with h | h | ⟨_, _, h⟩
    · rcases h with h | h | h | h | h | ⟨_, h⟩ | ⟨_, h⟩ | ⟨_, _, h⟩ <;> cases h
    · cases h.1
    · rcases h with h | h | h | h | h | h | h | h | h <;> cases h
      rfl
  refine ⟨?_, ?_, ?_⟩
  · intro f m h
    rw [key f m h]
    constructor <;> intro hd <;> simp [workFn, hd]
  · intro hd m h
    have := key _ _ h
    simp [workFn, hd] at this
  · intro pruneFn hok herrs
    exact mem_CreateChecksumFiles_of_pipeline
      (ProcessFiles_mem_untilExit_pipeline hok herrs root interval maxProc dryRun)

/-- C4, against the claim: in a run where `<-errs` delivers an error, the
error is logged and the process exits with code 1, and `cancel` is not
called. -/
theorem CreateChecksumFiles_error_without_cancel :
    Event.logError "failed to complete processing" (some "watcher failed") ∈
        CreateChecksumFiles failingWorld "/data" [] (30 * Second) 4 false ∧
    exitStatus (CreateChecksumFiles failingWorld "/data" [] (30 * Second) 4 false) = some 1 ∧
    Event.cancel ∉ CreateChecksumFiles failingWorld "/data" [] (30 * Second) 4 false := by
  decide

/-- C4, amended: once a fatal error is observed in the pipeline (`<-errs`
delivers an error, or `ProcessFiles` returns one) the error is logged (the
record of the error from `<-errs`, or the record of the error from
`ProcessFiles`, is part of the run) and the run ends the process with code 1;
`cancel` is called in such a run only if SIGINT or SIGTERM was sent to the
process, never on account of the error. -/
theorem CreateChecksumFiles_error_exits (w : World P) (root : String)
    (exclude : List String) (interval : Duration) (maxProc : Int) (dryRun : Bool)
    (pruneFn : P) (hok : w.makeGlobPruneFn exclude = Except.ok pruneFn)
    (herr : w.errs ≠ none ∨ w.ProcessFiles (workFn dryRun) maxProc ≠ none) :
    exitStatus (CreateChecksumFiles w root exclude interval maxProc dryRun) = some 1 ∧
    ((∃ err, w.errs = some err ∧
        Event.logError "failed to complete processing" (some err) ∈
          CreateChecksumFiles w root exclude interval maxProc dryRun) ∨
      (∃ err, w.ProcessFiles (workFn dryRun) maxProc = some err ∧
        Event.logError "failed processing" (some err) ∈
          CreateChecksumFiles w root exclude interval maxProc dryRun)) ∧
    (Event.cancel ∈ CreateChecksumFiles w root exclude interval maxProc dryRun →
      w.signal = some SIGINT ∨ w.signal = some SIGTERM) ∧
    (w.signal = none →
      Event.cancel ∉ CreateChecksumFiles w root exclude interval maxProc dryRun) := by
  have hc : Event.cancel ∈ CreateChecksumFiles w root exclude interval maxProc dryRun →
      w.signal = some SIGINT ∨ w.signal = some SIGTERM := by
    intro h
    rcases CreateChecksumFiles_cases h with h | h | ⟨_, _, h⟩
    · rcases h with h | h | h | h | h | ⟨_, h⟩ | ⟨_, h⟩ | ⟨_, _, h⟩ <;> cases h
    · exact h.2
    · rcases h with h | h | h | h | h | h | h | h | h <;> cases h
  refine ⟨?_, ?_, hc, ?_⟩
  · apply exitStatus_CreateChecksumFiles_eq
    · exact ⟨1, (pipeline_exit_iff hok root interval maxProc dryRun 1).2 ⟨rfl, herr⟩⟩
    · intro c h
      exact ((pipeline_exit_iff hok root interval maxProc dryRun c).1 h).1
  · rcases logError_mem_untilExit_pipeline hok root interval maxProc dryRun herr with
      ⟨err, he, hm⟩ | ⟨err, he, hm⟩
    · exact Or.inl ⟨err, he, mem_CreateChecksumFiles_of_pipeline hm⟩
    · exact Or.inr ⟨err, he, mem_CreateChecksumFiles_of_pipeline hm⟩
  · intro hs h
    rcases hc h with h2 | h2 <;> rw [hs] at h2 <;> cases h2

/-- The amended C4 at a concrete run: `<-errs` delivers an error and no signal
arrives. -/
theorem CreateChecksumFiles_error_exits_witness :
    exitStatus (CreateChecksumFiles failingWorld "/data" [] (30 * Second) 4 false) = some 1 ∧
    ((∃ err, failingWorld.errs = some err ∧
        Event.logError "failed to complete processing" (some err) ∈
          CreateChecksumFiles failingWorld "/data" [] (30 * Second) 4 false) ∨
      (∃ err, failingWorld.ProcessFiles (workFn false) 4 = some err ∧
        Event.logError "failed processing" (some err) ∈
          CreateChecksumFiles failingWorld "/data" [] (30 * Second) 4 false)) ∧
    (Event.cancel ∈ CreateChecksumFiles failingWorld "/data" [] (30 * Second) 4 false →
      failingWorld.signal = some SIGINT ∨ failingWorld.signal = some SIGTERM) ∧
    (failingWorld.signal = none →
      Event.cancel ∉ CreateChecksumFiles failingWorld "/data" [] (30 * Second) 4 false) :=
  CreateChecksumFiles_error_exits failingWorld "/data" [] (30 * Second) 4 false []
    rfl (Or.inl (by decide))

/-- C5: for a pipeline that has started, the run of `CreateChecksumFiles`
returns (no `os.Exit`) if and only if `<-errs` delivers nil and `ProcessFiles`
returns nil; in every other case it ends the process with code 1.  This holds
for every schedule of the goroutines and every signal. -/
theorem CreateChecksumFiles_returns_iff (w : World P) (root : String)
    (exclude : List String) (interval : Duration) (maxProc : Int) (dryRun : Bool)
    (pruneFn : P) (hok : w.makeGlobPruneFn exclude = Except.ok pruneFn) :
    (exitStatus (CreateChecksumFiles w root exclude interval maxProc dryRun) = none ↔
      w.errs = none ∧ w.ProcessFiles (workFn dryRun) maxProc = none) ∧
    (¬ (w.errs = none ∧ w.ProcessFiles (workFn dryRun) maxProc = none) →
      exitStatus (CreateChecksumFiles w root exclude interval maxProc dryRun) = some 1) := by
  have hexit : ¬ (w.errs = none ∧ w.ProcessFiles (workFn dryRun) maxProc = none) →
      exitStatus (CreateChecksumFiles w root exclude interval maxProc dryRun) = some 1 := by
    intro hn
    have herr : w.errs ≠ none ∨ w.ProcessFiles (workFn dryRun) maxProc ≠ none := by
      by_cases h1 : w.errs = none
      · exact Or.inr (fun h2 => hn ⟨h1, h2⟩)
      · exact Or.inl h1
    apply exitStatus_CreateChecksumFiles_eq
    · exact ⟨1, (pipeline_exit_iff hok root interval maxProc dryRun 1).2 ⟨rfl, herr⟩⟩
    · intro c h
      exact ((pipeline_exit_iff hok root interval maxProc dryRun c).1 h).1
  refine ⟨⟨?_, ?_⟩, hexit⟩
  · intro hnone
    by_contra hn
    rw [hexit hn] at hnone
    cases hnone
  · rintro ⟨h1, h2⟩
    apply exitStatus_CreateChecksumFiles_none
    intro c h
    rcases ((pipeline_exit_iff hok root interval maxProc dryRun c).1 h).2 with h3 | h3
    · exact h3 h1
    · exact h3 h2

/-- C5 at a concrete run in which nothing fails. -/
theorem CreateChecksumFiles_returns_iff_witness :
    (exitStatus (CreateChecksumFiles quietWorld "/data" [] (30 * Second) 4 true) = none ↔
      quietWorld.errs = none ∧ quietWorld.ProcessFiles (workFn true) 4 = none) ∧
    (¬ (quietWorld.errs = none ∧ quietWorld.ProcessFiles (workFn true) 4 = none) →
      exitStatus (CreateChecksumFiles quietWorld "/data" [] (30 * Second) 4 true) = some 1) :=
  CreateChecksumFiles_returns_iff quietWorld "/data" [] (30 * Second) 4 true [] rfl

/-- C6: when `makeGlobPruneFn` returns an error for the exclude list, the run
of `CreateChecksumFiles` ends the process with code 1 and holds no call of
`WatchFiles`, `FindFilesInterval` or `ProcessFiles`. -/
theorem CreateChecksumFiles_bad_patterns (w : World P) (root : String)
    (exclude : List String) (interval : Duration) (maxProc : Int) (dryRun : Bool)
    (err : String) (herr : w.makeGlobPruneFn exclude = Except.error err) :
    exitStatus (CreateChecksumFiles w root exclude interval maxProc dryRun) = some 1 ∧
    (∀ e ∈ CreateChecksumFiles w root exclude interval maxProc dryRun,
      e.isPipelineCall = false) ∧
    Event.logError "error in exclusion patterns" (some err) ∈
      CreateChecksumFiles w root exclude interval maxProc dryRun := by
  refine ⟨?_, ?_, ?_⟩
  · apply exitStatus_CreateChecksumFiles_eq
    · exact ⟨1, by rw [pipeline_of_error herr]; simp⟩
    · intro c h
      rw [pipeline_of_error herr] at h
      simpa using h
  · intro e h
    rcases CreateChecksumFiles_cases h with h | h | ⟨pruneFn, hok, _⟩
    · rcases h with h | h | h | h | h | ⟨_, h⟩ | ⟨_, h⟩ | ⟨_, _, h⟩ <;> subst h <;> rfl
    · rw [h.1]; rfl
    · rw [herr] at hok; cases hok
  · apply mem_CreateChecksumFiles_of_pipeline
    rw [pipeline_of_error herr]
    simp [untilExit]

/-- C6 at a concrete run whose exclusion patterns are rejected. -/
theorem CreateChecksumFiles_bad_patterns_witness :
    exitStatus (CreateChecksumFiles badPatternWorld "/data" ["["] (30 * Second) 4 false)
      = some 1 ∧
    (∀ e ∈ CreateChecksumFiles badPatternWorld "/data" ["["] (30 * Second) 4 false,
      e.isPipelineCall = false) ∧
    Event.logError "error in exclusion patterns" (some "syntax error in pattern") ∈
      CreateChecksumFiles badPatternWorld "/data" ["["] (30 * Second) 4 false :=
  CreateChecksumFiles_bad_patterns badPatternWorld "/data" ["["] (30 * Second) 4 false
    "syntax error in pattern" rfl

/-- C7: when `makeGlobPruneFn` accepts the exclude list and returns `pruneFn`,
every run of `CreateChecksumFiles` calls `WatchFiles` and `FindFilesInterval`,
both with the context `cancelCtx`, the root, the predicate `RequiresChecksum`
and that same `pruneFn`; it calls them with no other arguments, and
`makeGlobPruneFn` is called with the whole exclude list only. -/
theorem CreateChecksumFiles_same_discovery_args (w : World P) (root : String)
    (exclude : List String) (interval : Duration) (maxProc : Int) (dryRun : Bool)
    (pruneFn : P) (hok : w.makeGlobPruneFn exclude = Except.ok pruneFn) :
    Event.WatchFiles Context.cancelCtx root FilePredicate.RequiresChecksum pruneFn ∈
      CreateChecksumFiles w root exclude interval maxProc dryRun ∧
    Event.FindFilesInterval Context.cancelCtx root FilePredicate.RequiresChecksum
      pruneFn interval ∈ CreateChecksumFiles w root exclude interval maxProc dryRun ∧
    (∀ ctx r pred f, Event.WatchFiles ctx r pred f ∈
        CreateChecksumFiles w root exclude interval maxProc dryRun →
      ctx = Context.cancelCtx ∧ r = root ∧ pred = FilePredicate.RequiresChecksum ∧
        f = pruneFn) ∧
    (∀ ctx r pred f i, Event.FindFilesInterval ctx r pred f i ∈
        CreateChecksumFiles w root exclude interval maxProc dryRun →
      ctx = Context.cancelCtx ∧ r = root ∧ pred = FilePredicate.RequiresChecksum ∧
        f = pruneFn ∧ i = interval) ∧
    (∀ ex, Event.makeGlobPruneFn ex ∈
        CreateChecksumFiles w root exclude interval maxProc dryRun → ex = exclude) := by
  have hd := discovery_mem_untilExit_pipeline hok root interval maxProc dryRun
  refine ⟨mem_CreateChecksumFiles_of_pipeline hd.1,
    mem_CreateChecksumFiles_of_pipeline hd.2, ?_, ?_, ?_⟩
  · intro ctx r pred f h
    rcases CreateChecksumFiles_cases h with h | h | ⟨g, hg, h⟩
    · rcases h with h | h | h | h | h | ⟨_, h⟩ | ⟨_, h⟩ | ⟨_, _, h⟩ <;> cases h
    · cases h.1
    · rw [hok] at hg
      cases hg
      rcases h with h | h | h | h | h | h | h | h | h <;> cases h
      exact ⟨rfl, rfl, rfl, rfl⟩
  · intro ctx r pred f i h
    rcases CreateChecksumFiles_cases h with h | h | ⟨g, hg, h⟩
    · rcases h with h | h | h | h | h | ⟨_, h⟩ | ⟨_, h⟩ | ⟨_, _, h⟩ <;> cases h
    · cases h.1
    · rw [hok] at hg
      cases hg
      rcases h with h | h | h | h | h | h | h | h | h <;> cases h
      exact ⟨rfl, rfl, rfl, rfl, rfl⟩
  · intro ex h
    rcases CreateChecksumFiles_cases h with h | h | ⟨g, hg, h⟩
    · rcases h with h | h | h | h | h | ⟨_, h⟩ | ⟨_, h⟩ | ⟨_, _, h⟩ <;> cases h
      rfl
    · cases h.1
    · rcases h with h | h | h | h | h | h | h | h | h <;> cases h

/-- C7 at a concrete run with one excluded directory. -/
theorem CreateChecksumFiles_same_discovery_args_witness :
    Event.WatchFiles Context.cancelCtx "/data" FilePredicate.RequiresChecksum
        ["/data/intermediate"] ∈
      CreateChecksumFiles quietWorld "/data" ["/data/intermediate"] (30 * Second) 4 false ∧
    Event.FindFilesInterval Context.cancelCtx "/data" FilePredicate.RequiresChecksum
        ["/data/intermediate"] (30 * Second) ∈
      CreateChecksumFiles quietWorld "/data" ["/data/intermediate"] (30 * Second) 4 false :=
  ⟨(CreateChecksumFiles_same_discovery_args quietWorld "/data" ["/data/intermediate"]
      (30 * Second) 4 false ["/data/intermediate"] rfl).1,
   (CreateChecksumFiles_same_discovery_args quietWorld "/data" ["/data/intermediate"]
      (30 * Second) 4 false ["/data/intermediate"] rfl).2.1⟩

/-- C8, against the claim: with `--max-proc 0` and an interval equal to
`minSweep` the flags are accepted (the run does not exit) and `ProcessFiles`
is called with `maxProc` 0, which is not positive. -/
theorem runChecksumCreateCmd_maxProc_zero :
    ¬ ((exampleFlags (30 * Second) 0).sweepInterval < quietWorld.minSweep) ∧
    exitStatus (runChecksumCreateCmd quietWorld (exampleFlags (30 * Second) 0)) = none ∧
    Event.ProcessFiles WorkFunc.CreateOrUpdateMD5ChecksumFile 0 ∈
      runChecksumCreateCmd quietWorld (exampleFlags (30 * Second) 0) ∧
    ¬ ((1 : Int) ≤ 0) := by
  decide

/-- C8, amended: for flags that `runChecksumCreateCmd` accepts, whatever the
value of the `maxProc` flag, `CreateChecksumFiles` is called, and the `maxProc`
handed to it and on to `ProcessFiles` is the value of the flag, unchanged and
unchecked: it is at least 1 exactly when the flag is, and `ProcessFiles` is
called with it whenever the exclusion patterns are accepted and `<-errs`
delivers no error. -/
theorem runChecksumCreateCmd_maxProc_unchanged (w : World P) (flags : cliFlags)
    (hacc : ¬ flags.sweepInterval < w.minSweep) :
    Event.CreateChecksumFiles flags.rootDir flags.excludeDirs flags.sweepInterval
      flags.maxProc flags.dryRun ∈ runChecksumCreateCmd w flags ∧
    (∀ r ex i m d, Event.CreateChecksumFiles r ex i m d ∈ runChecksumCreateCmd w flags →
      m = flags.maxProc) ∧
    (∀ f m, Event.ProcessFiles f m ∈ runChecksumCreateCmd w flags →
      m = flags.maxProc ∧ (1 ≤ m ↔ 1 ≤ flags.maxProc)) ∧
    (∀ pruneFn, w.makeGlobPruneFn flags.excludeDirs = Except.ok pruneFn → w.errs = none →
      ∃ f, Event.ProcessFiles f flags.maxProc ∈ runChecksumCreateCmd w flags) := by
  have hrun : runChecksumCreateCmd w flags =
      Event.CreateChecksumFiles flags.rootDir flags.excludeDirs flags.sweepInterval
        flags.maxProc flags.dryRun ::
      CreateChecksumFiles w flags.rootDir flags.excludeDirs flags.sweepInterval
        flags.maxProc flags.dryRun := by
    simp [runChecksumCreateCmd, hacc]
  rw [hrun]
  refine ⟨List.mem_cons_self _ _, ?_, ?_, ?_⟩
  · intro r ex i m d h
    rcases List.mem_cons.1 h with h | h
    · cases h; rfl
    · rcases CreateChecksumFiles_cases h with h | h | ⟨_, _, h⟩
      · rcases h with h | h | h | h | h | ⟨_, h⟩ | ⟨_, h⟩ | ⟨_, _, h⟩ <;> cases h
      · cases h.1
      · rcases h with h | h | h | h | h | h | h | h | h <;> cases h
  · intro f m h
    have hm : m = flags.maxProc := by
      rcases List.mem_cons.1 h with h | h
      · cases h
      · rcases CreateChecksumFiles_cases h with h | h | ⟨_, _, h⟩
        · rcases h with h | h | h | h | h | ⟨_, h⟩ | ⟨_, h⟩ | ⟨_, _, h⟩ <;> cases h
        · cases h.1
        · rcases h with h | h | h | h | h | h | h | h | h <;> cases h
          rfl
    exact ⟨hm, by rw [hm]⟩
  · intro pruneFn hok herrs
    exact ⟨workFn flags.dryRun, List.mem_cons_of_mem _
      (mem_CreateChecksumFiles_of_pipeline
        (ProcessFiles_mem_untilExit_pipeline hok herrs flags.rootDir flags.sweepInterval
          flags.maxProc flags.dryRun))⟩

/-- The amended C8 at concrete flags: `maxProc` 4 and an interval of 20
minutes. -/
theorem runChecksumCreateCmd_maxProc_unchanged_witness :
    Event.CreateChecksumFiles "/data" ["/data/intermediate"] (1200 * Second) 4 false ∈
      runChecksumCreateCmd quietWorld (exampleFlags (1200 * Second) 4) ∧
    ((4 : Int) = (exampleFlags (1200 * Second) 4).maxProc ∧
      ((1 : Int) ≤ 4 ↔ 1 ≤ (exampleFlags (1200 * Second) 4).maxProc)) :=
  ⟨(runChecksumCreateCmd_maxProc_unchanged quietWorld (exampleFlags (1200 * Second) 4)
      (by decide)).1,
   (runChecksumCreateCmd_maxProc_unchanged quietWorld (exampleFlags (1200 * Second) 4)
      (by decide)).2.2.1 WorkFunc.CreateOrUpdateMD5ChecksumFile 4 (by decide)⟩

/-- C9, against the claim: an interval equal to `minSweep`, which is not
strictly greater than `minSweep`, is accepted and handed to
`CreateChecksumFiles`. -/
theorem runChecksumCreateCmd_accepts_minSweep :
    Event.CreateChecksumFiles "/data" ["/data/intermediate"] (30 * Second) 4 false ∈
      runChecksumCreateCmd quietWorld (exampleFlags (30 * Second) 4) ∧
    ¬ (quietWorld.minSweep < 30 * Second) := by
  decide

/-- C9, amended: every interval that `runChecksumCreateCmd` hands to
`CreateChecksumFiles` is the `sweepInterval` flag and is greater than or equal
to `minSweep`; and every interval that is greater than or equal to `minSweep`
is handed over. -/
theorem runChecksumCreateCmd_interval_ge_minSweep (w : World P) (flags : cliFlags) :
    (∀ r ex i m d, Event.CreateChecksumFiles r ex i m d ∈ runChecksumCreateCmd w flags →
      i = flags.sweepInterval ∧ w.minSweep ≤ i) ∧
    (w.minSweep ≤ flags.sweepInterval →
      Event.CreateChecksumFiles flags.rootDir flags.excludeDirs flags.sweepInterval
        flags.maxProc flags.dryRun ∈ runChecksumCreateCmd w flags) := by
  constructor
  · intro r ex i m d h
    by_cases hlt : flags.sweepInterval < w.minSweep
    · simp [runChecksumCreateCmd, hlt, untilExit] at h
    · have hrun : runChecksumCreateCmd w flags =
          Event.CreateChecksumFiles flags.rootDir flags.excludeDirs flags.sweepInterval
            flags.maxProc flags.dryRun ::
          CreateChecksumFiles w flags.rootDir flags.excludeDirs flags.sweepInterval
            flags.maxProc flags.dryRun := by
        simp [runChecksumCreateCmd, hlt]
      rw [hrun] at h
      rcases List.mem_cons.1 h with h | h
      · cases h
        exact ⟨rfl, not_lt.1 hlt⟩
      · rcases CreateChecksumFiles_cases h with h | h | ⟨_, _, h⟩
        · rcases h with h | h | h | h | h | ⟨_, h⟩ | ⟨_, h⟩ | ⟨_, _, h⟩ <;> cases h
        · cases h.1
        · rcases h with h | h | h | h | h | h | h | h | h <;> cases h
  · intro hge
    simp [runChecksumCreateCmd, not_lt.2 hge]

end Claims

end Valet
